import Mathlib

/-!
Shallow embedding of the development-mode orchestration core of the moose
framework CLI (`apps/framework-cli`), covering:

* `src/cli/routines.rs` — the `Routine` abstraction, `start_development_mode`,
  `start_production_mode`, `initialize_project_state`, and
  `check_for_model_changes`;
* `src/framework/python/aggregation.rs` — the Python aggregations runner;
* `src/utilities/constants.rs` — directory-name constants.

External collaborators (the OLAP client, the BUS client, the planner, the
executor, the process registries) are modelled as oracles: an `Env` record
holds the result each external call would return, and the embedded
orchestration functions thread those results exactly the way the Rust code
threads its `await?` results, while recording the calls they make as an
event trace.  Rust `Result` becomes `Except`, `.unwrap()`/`.expect()` on an
error becomes a distinguished `panic` outcome, and `let _ = …` discards the
oracle result just as the source discards it.
-/

namespace Moose

/-! ## Constants (`src/utilities/constants.rs`) -/

def SCHEMAS_DIR : String := "datamodels"

def FUNCTIONS_DIR : String := "functions"

def AGGREGATIONS_DIR : String := "aggregations"

def BLOCKS_DIR : String := "blocks"

def CONSUMPTION_DIR : String := "apis"

def APP_DIR : String := "app"

/-! ## Messages and the `Routine` abstraction (`src/cli/routines.rs`) -/

/-- `display::Message { action, details }`. -/
structure Message where
  action : String
  details : String
deriving DecidableEq, Repr

/-- `display::MessageType`. -/
inductive MessageType where
  | Info
  | Success
  | Error
  | Highlight
deriving DecidableEq, Repr

/-- `RoutineSuccess { message, message_type }`. -/
structure RoutineSuccess where
  message : Message
  message_type : MessageType
deriving DecidableEq, Repr

/-- `RoutineSuccess::info`. -/
def RoutineSuccess.info (message : Message) : RoutineSuccess :=
  { message := message, message_type := MessageType.Info }

/-- `RoutineSuccess::success`. -/
def RoutineSuccess.success (message : Message) : RoutineSuccess :=
  { message := message, message_type := MessageType.Success }

/-- `RoutineSuccess.highlight`. -/
def RoutineSuccess.highlight (message : Message) : RoutineSuccess :=
  { message := message, message_type := MessageType.Highlight }

/-- `RoutineFailure { message, message_type, error }`; the wrapped
`anyhow::Error` is modelled by its rendered string. -/
structure RoutineFailure where
  message : Message
  message_type : MessageType
  error : Option String
deriving DecidableEq, Repr

/-- `RoutineFailure::new`. -/
def RoutineFailure.new (message : Message) (error : String) : RoutineFailure :=
  { message := message, message_type := MessageType.Error, error := some error }

/-- `RoutineFailure::error` — a failure without a wrapped error (named
`errorOf` here because the structure already has a field `error`). -/
def RoutineFailure.errorOf (message : Message) : RoutineFailure :=
  { message := message, message_type := MessageType.Error, error := none }

/-- `RunMode` — a single variant, `Explicit`. -/
inductive RunMode where
  | Explicit
deriving DecidableEq, Repr

/-- A `Routine` is determined by its `run_silent` body (the one required
method of the Rust trait); `run` and `run_explicit` are the trait's provided
methods, modelled below. -/
structure Routine where
  run_silent : Except RoutineFailure RoutineSuccess

/-- The message `run_explicit` displays for a failure: the failure's action,
and its details with the wrapped error appended when present. -/
def failureDisplay (failure : RoutineFailure) : MessageType × Message :=
  (failure.message_type,
    { action := failure.message.action,
      details :=
        match failure.error with
        | none => failure.message.details
        | some e => failure.message.details ++ ": " ++ e })

/-- `Routine::run_explicit`: runs `run_silent`, shows the resulting message
(first component: the list of `show_message!` side effects, in order), and
returns the very same `Result` value (second component). -/
def Routine.run_explicit (r : Routine) :
    List (MessageType × Message) × Except RoutineFailure RoutineSuccess :=
  match r.run_silent with
  | Except.ok success =>
      ([(success.message_type, success.message)], Except.ok success)
  | Except.error failure =>
      ([failureDisplay failure], Except.error failure)

/-- `Routine::run`: dispatches on the `RunMode`. -/
def Routine.run (r : Routine) (mode : RunMode) :
    List (MessageType × Message) × Except RoutineFailure RoutineSuccess :=
  match mode with
  | RunMode.Explicit => r.run_explicit

/-! ## Python aggregations runner (`src/framework/python/aggregation.rs`) -/

/-- `ClickHouseConfig` — the fields `aggregation::run` reads. -/
structure ClickHouseConfig where
  db_name : String
  host : String
  host_port : Nat
  user : String
  password : String
  use_ssl : Bool

/-- A Rust `&Path`; `to_str` is `none` when the path is not valid UTF-8. -/
structure RustPath where
  to_str : Option String

/-- A spawned child process; `stdout`/`stderr` are `none` when the handle was
not captured (the source `.expect`s both to be present). -/
structure Child where
  stdout : Option Unit
  stderr : Option Unit

/-- Observable calls made by `aggregation::run`. -/
inductive AggEvent where
  | spawnCalled (args : List String)
deriving DecidableEq, Repr

/-- Outcome of `aggregation::run`: `ok` a child, `err` an `AggregationError`
(modelled by its message), or a Rust panic. -/
inductive AggOutcome where
  | ok (child : Child)
  | err (e : String)
  | panic (msg : String)

/-- `true` exactly on the `err` outcome. -/
def AggOutcome.isErr : AggOutcome → Bool
  | AggOutcome.err _ => true
  | _ => false

/-- `true` exactly on the `panic` outcome. -/
def AggOutcome.isPanic : AggOutcome → Bool
  | AggOutcome.panic _ => true
  | _ => false

/-- The argv built by `aggregation::run` for a UTF-8 path rendered as `p`:
path, db name, host, host port, user, password, use_ssl, in source order. -/
def aggregationArgs (cfg : ClickHouseConfig) (p : String) : List String :=
  [p, cfg.db_name, cfg.host, toString cfg.host_port, cfg.user, cfg.password,
    toString cfg.use_ssl]

/-- `aggregation::run`.  `spawn` is the oracle for
`executor::run_python_program` (the `?` on it surfaces spawn failures as
`AggregationError`).  The path conversion `to_str().unwrap()` happens while
building the argv, before any spawn; the `.expect`s on the stdout/stderr
handles happen after a successful spawn.  Returns the event trace and the
outcome. -/
def aggregation_run (spawn : List String → Except String Child)
    (cfg : ClickHouseConfig) (path : RustPath) : List AggEvent × AggOutcome :=
  match path.to_str with
  | none => ([], AggOutcome.panic "called Option::unwrap on a None value")
  | some p =>
      let args := aggregationArgs cfg p
      match spawn args with
      | Except.error e => ([AggEvent.spawnCalled args], AggOutcome.err e)
      | Except.ok child =>
          match child.stdout with
          | none =>
              ([AggEvent.spawnCalled args],
                AggOutcome.panic "Aggregation process did not have a handle to stdout")
          | some _ =>
              match child.stderr with
              | none =>
                  ([AggEvent.spawnCalled args],
                    AggOutcome.panic "Aggregation process did not have a handle to stderr")
              | some _ => ([AggEvent.spawnCalled args], AggOutcome.ok child)

/-! ## Child-process output forwarding (`aggregation.rs`, lines 38–51)

Each of the two spawned forwarding tasks reads its own stream line by line
and forwards every line, as one whole unit, to the observability sink (the
`info!`/`error!` log macros).  The scheduler may interleave the two tasks —
and the tasks of different children — arbitrarily, but each task forwards
its lines in stream order.  `Merge xs ys zs` says the sink trace `zs` is an
order-preserving interleaving of per-task traces `xs` and `ys`. -/

/-- Which stream of a child a sink event came from. -/
inductive StreamTag where
  | stdout
  | stderr
deriving DecidableEq, Repr

/-- One whole line delivered to the observability sink. -/
structure SinkEvent where
  child : Nat
  stream : StreamTag
  line : String
deriving DecidableEq, Repr

/-- The sink events produced by one forwarding task for child `c`,
stream `tag`, with lines `lines` read in emission order. -/
def forwardTask (c : Nat) (tag : StreamTag) (lines : List String) :
    List SinkEvent :=
  lines.map (fun line => { child := c, stream := tag, line := line })

/-- `Merge xs ys zs`: `zs` interleaves `xs` and `ys` preserving the internal
order of each. -/
inductive Merge : List SinkEvent → List SinkEvent → List SinkEvent → Prop where
  | nil : Merge [] [] []
  | left {x : SinkEvent} {xs ys zs : List SinkEvent} :
      Merge xs ys zs → Merge (x :: xs) ys (x :: zs)
  | right {y : SinkEvent} {xs ys zs : List SinkEvent} :
      Merge xs ys zs → Merge xs (y :: ys) (y :: zs)

theorem Merge.filter_left {p : SinkEvent → Bool} :
    ∀ {xs ys zs : List SinkEvent}, Merge xs ys zs →
      (∀ x ∈ xs, p x = true) → (∀ y ∈ ys, p y = false) →
      zs.filter p = xs := by
  intro xs ys zs h
  induction h with
  | nil => intro _ _; rfl
  | left h ih =>
      intro hx hy
      have hp := hx _ (List.mem_cons_self _ _)
      simp [List.filter, hp]
      exact ih (fun a ha => hx a (List.mem_cons_of_mem _ ha)) hy
  | right h ih =>
      intro hx hy
      have hp := hy _ (List.mem_cons_self _ _)
      simp [List.filter, hp]
      exact ih hx (fun a ha => hy a (List.mem_cons_of_mem _ ha))

theorem Merge.filter_right {p : SinkEvent → Bool} :
    ∀ {xs ys zs : List SinkEvent}, Merge xs ys zs →
      (∀ x ∈ xs, p x = false) → (∀ y ∈ ys, p y = true) →
      zs.filter p = ys := by
  intro xs ys zs h
  induction h with
  | nil => intro _ _; rfl
  | left h ih =>
      intro hx hy
      have hp := hx _ (List.mem_cons_self _ _)
      simp [List.filter, hp]
      exact ih (fun a ha => hx a (List.mem_cons_of_mem _ ha)) hy
  | right h ih =>
      intro hx hy
      have hp := hy _ (List.mem_cons_self _ _)
      simp [List.filter, hp]
      exact ih hx (fun a ha => hy a (List.mem_cons_of_mem _ ha))

/-! ## Project data model

Modelled from the spec: `FrameworkObject`, `SchemaVersion` and
`FrameworkObjectVersions` live in `framework::core::code_loader`, which is
not part of the given sources; §3 of the spec gives their shape, and
`routines.rs` fixes the fields actually read (`fo.data_model.name`,
`fo.data_model.columns`, `column.name`, `column.data_type.to_string()`,
`sv.models`, `sv.base_path`, `previous_version_models`, `current_models`,
`current_version`). -/

/-- A typed column; `data_type` is the rendered form the source obtains via
`column.data_type.to_string()`. -/
structure Column where
  name : String
  data_type : String
  nullable : Bool
  primary_key : Bool
deriving DecidableEq, Repr

/-- The data model carried by a `FrameworkObject`. -/
structure DataModel where
  name : String
  columns : List Column
deriving DecidableEq, Repr

/-- Modelled from the spec: a `FrameworkObject` — a data model plus the
metadata (BUS ingestion topic, OLAP destination table) that does not feed
the schema hash. -/
structure FrameworkObject where
  data_model : DataModel
  topic : String
  table : String
deriving DecidableEq, Repr

/-- Modelled from the spec: a `SchemaVersion` — model name → `FrameworkObject`
(association list standing for the Rust `HashMap`), plus the base path. -/
structure SchemaVersion where
  models : List (String × FrameworkObject)
  base_path : String
deriving DecidableEq, Repr

/-- Modelled from the spec: `FrameworkObjectVersions`. -/
structure FrameworkObjectVersions where
  current_version : String
  current_models : SchemaVersion
  previous_version_models : List (String × SchemaVersion)
deriving DecidableEq, Repr

/-- A `VersionSync` edge of the declared migration graph (the payload is
opaque to `routines.rs`, which only forwards it). -/
structure VersionSync where
  source_version : String
  dest_version : String
deriving DecidableEq, Repr

/-! ## Schema-hash preparation (`check_for_model_changes`, lines 537–551)

`data_elements` collects `(column name, data type string)` pairs in column
order and then `data_elements.sort()`s them — the `Vec<(String, String)>`
sort is lexicographic on the pair, component strings compared
lexicographically. -/

/-- Rust's `Ord` on `(String, String)`: first components compared, ties
broken on the second. -/
def pairLe (a b : String × String) : Prop :=
  a.1 < b.1 ∨ (a.1 = b.1 ∧ a.2 ≤ b.2)

instance : DecidableRel pairLe := fun a b => by
  unfold pairLe; infer_instance

instance : IsTotal (String × String) pairLe where
  total a b := by
    rcases lt_trichotomy a.1 b.1 with h | h | h
    · exact Or.inl (Or.inl h)
    · rcases le_total a.2 b.2 with h2 | h2
      · exact Or.inl (Or.inr ⟨h, h2⟩)
      · exact Or.inr (Or.inr ⟨h.symm, h2⟩)
    · exact Or.inr (Or.inl h)

instance : IsTrans (String × String) pairLe where
  trans a b c hab hbc := by
    rcases hab with h1 | ⟨e1, l1⟩
    · rcases hbc with h2 | ⟨e2, _⟩
      · exact Or.inl (lt_trans h1 h2)
      · exact Or.inl (e2 ▸ h1)
    · rcases hbc with h2 | ⟨e2, l2⟩
      · exact Or.inl (e1 ▸ h2)
      · exact Or.inr ⟨e1.trans e2, le_trans l1 l2⟩

instance : IsAntisymm (String × String) pairLe where
  antisymm a b hab hba := by
    rcases hab with h1 | ⟨e1, l1⟩
    · rcases hba with h2 | ⟨e2, _⟩
      · exact absurd h2 (lt_asymm h1)
      · exact absurd e2 (ne_of_gt h1)
    · rcases hba with h2 | ⟨_, l2⟩
      · exact absurd e1 (ne_of_gt h2)
      · exact Prod.ext e1 (le_antisymm l1 l2)

/-- `data_elements.sort()`. -/
def sortPairs (l : List (String × String)) : List (String × String) :=
  List.insertionSort pairLe l

/-- The sorted output of `sortPairs` depends only on the multiset of pairs:
Rust's sort of a permuted vector yields the same sorted vector. -/
theorem sortPairs_perm {l₁ l₂ : List (String × String)} (h : l₁.Perm l₂) :
    sortPairs l₁ = sortPairs l₂ := by
  exact @List.eq_of_perm_of_sorted _ pairLe _ _ _
    (((List.perm_insertionSort pairLe l₁).trans h).trans
      (List.perm_insertionSort pairLe l₂).symm)
    (List.sorted_insertionSort pairLe l₁)
    (List.sorted_insertionSort pairLe l₂)

/-- The unsorted `(name, data type)` pairs of a framework object, in column
order. -/
def columnPairs (fo : FrameworkObject) : List (String × String) :=
  fo.data_model.columns.map (fun c => (c.name, c.data_type))

/-- `data_elements` after the `sort()` — exactly what
`check_for_model_changes` feeds to `table_schema_to_hash`. -/
def dataElements (fo : FrameworkObject) : List (String × String) :=
  sortPairs (columnPairs fo)

/-- The schema hash of a framework object, for a given hash oracle `h`
standing for `table_schema_to_hash` (whose body lives in the ClickHouse
client, outside the given sources). -/
def modelHash (h : List (String × String) → Except String Nat)
    (fo : FrameworkObject) : Except String Nat :=
  h (dataElements fo)

/-! ## Orchestration embedding (`src/cli/routines.rs`)

External calls are recorded as events; an `Env` oracle fixes the result of
each call. -/

/-- The observable external calls of one startup run. -/
inductive Event where
  | loadFrameworkObjects
  | checkReady
  | fetchTableNames
  | fetchTableSchema (table : String)
  | errorLog (msg : String)
  | processObjects (version : String)
  | getAllVersionSyncs
  | createOrReplaceVersionSync (source_version dest_version : String)
  | verifyStreamingFunctions
  | getPool
  | planChanges
  | executeInitialInfraChange
  | storeInfrastructureMap
  | storeCurrentState
  | fetchTopics
  | syncingStartAll
  | processStreamingFuncChanges
  | newAggregationRegistry (dir : List String)
  | processAggregationsChanges
  | processConsumptionChanges
deriving DecidableEq, Repr

/-- Result of an embedded `async fn`: the emitted event trace together with a
normal return, a propagated `Err` (Rust `?`), or a Rust panic
(`unwrap`/`expect`). -/
inductive Res (α : Type) where
  | ok (events : List Event) (val : α)
  | err (events : List Event) (e : String)
  | panic (events : List Event) (msg : String)

/-- The event trace of a result, whatever its outcome. -/
def Res.events {α : Type} : Res α → List Event
  | Res.ok es _ => es
  | Res.err es _ => es
  | Res.panic es _ => es

/-- `true` exactly on a normal return. -/
def Res.isOk {α : Type} : Res α → Bool
  | Res.ok _ _ => true
  | _ => false

/-- `true` exactly on a panic. -/
def Res.isPanic {α : Type} : Res α → Bool
  | Res.panic _ _ => true
  | _ => false

/-- Sequencing: Rust `let a = step.await?; rest` — the trace accumulates,
errors and panics short-circuit. -/
def Res.bind {α β : Type} (r : Res α) (f : α → Res β) : Res β :=
  match r with
  | Res.ok es a =>
      match f a with
      | Res.ok es' b => Res.ok (es ++ es') b
      | Res.err es' e => Res.err (es ++ es') e
      | Res.panic es' m => Res.panic (es ++ es') m
  | Res.err es e => Res.err es e
  | Res.panic es m => Res.panic es m

/-- One external call whose `Result` is propagated with `?`. -/
def lift {α : Type} (ev : Event) (r : Except String α) : Res α :=
  match r with
  | Except.ok a => Res.ok [ev] a
  | Except.error e => Res.err [ev] e

/-- One external call whose `Result` is `.unwrap()`ed. -/
def liftUnwrap {α : Type} (ev : Event) (r : Except String α) (msg : String) :
    Res α :=
  match r with
  | Except.ok a => Res.ok [ev] a
  | Except.error _ => Res.panic [ev] msg

/-- The planner result; `routines.rs` treats it as opaque and only forwards
`target_infra_map` to `store_infrastructure_map`, so the map is abstracted
to its content fingerprint. -/
structure PlanResult where
  target_infra_map : Nat

/-- Oracle for every external collaborator `routines.rs` awaits: the result
each call would produce during this run. -/
structure Env where
  load_framework_objects : Except String FrameworkObjectVersions
  table_schema_to_hash : List (String × String) → Except String Nat
  check_ready : Except String Unit
  fetch_table_names : Except String (List String)
  fetch_table_schema : String → Except String (List (String × String))
  process_objects : String → Except String Unit
  get_all_version_syncs : Except String (List VersionSync)
  create_or_replace_version_sync : VersionSync → Except String Unit
  get_pool : Except String Unit
  plan_changes : Except String PlanResult
  execute_initial_infra_change : Except String Unit
  store_infrastructure_map : Nat → Except String Unit
  store_current_state : Except String Unit
  fetch_topics : Except String (List String)
  process_streaming_func_changes : Except String Unit
  process_aggregations_changes : Except String Unit
  process_consumption_changes : Except String Unit

/-- The feature flags `routines.rs` reads. -/
structure Features where
  core_v2 : Bool
  blocks : Bool

/-- The slice of `Project` that `routines.rs` reads.  `old_versions` is the
result of `project.old_versions_sorted()`. -/
structure Project where
  root : List String
  old_versions : List String
  is_production : Bool

/-- Modelled from the spec: `Project::aggregations_dir` (in `project.rs`,
outside the given sources); §6 lays the aggregations out under
`<root>/app/aggregations`. -/
def Project.aggregations_dir (p : Project) : List String :=
  p.root ++ [APP_DIR, AGGREGATIONS_DIR]

/-- Modelled from the spec: `Project::blocks_dir`; §6 lays blocks out under
`<root>/app/blocks`. -/
def Project.blocks_dir (p : Project) : List String :=
  p.root ++ [APP_DIR, BLOCKS_DIR]

/-- `HashMap::insert` on an association list: replace the value under an
existing key, otherwise append. -/
def insertAssoc {α : Type} : List (String × α) → String → α → List (String × α)
  | [], k, v => [(k, v)]
  | kv :: rest, k, v =>
      if kv.1 == k then (k, v) :: rest else kv :: insertAssoc rest k v

/-- `HashMap::get` on an association list. -/
def lookupAssoc {α : Type} (m : List (String × α)) (k : String) : Option α :=
  (m.find? (fun kv => kv.1 == k)).map Prod.snd

/-- The `.values()` of an association-list map, in insertion order. -/
def valuesOf {α : Type} (m : List (String × α)) : List α :=
  m.map Prod.snd

/-- The per-model hashing loops of `check_for_model_changes` (lines 536–552
and 556–574): build `name → hash`, `.unwrap()`ing every hash (`none` models
the panic). -/
def buildModelHashes (h : List (String × String) → Except String Nat) :
    List FrameworkObject → List (String × Nat) → Option (List (String × Nat))
  | [], acc => some acc
  | fo :: rest, acc =>
      match h (dataElements fo) with
      | Except.error _ => none
      | Except.ok hv =>
          buildModelHashes h rest (insertAssoc acc fo.data_model.name hv)

/-- The per-table introspection loop of `check_for_model_changes`
(lines 582–609): a failed schema fetch or hash is logged via `error!` and the
table is skipped; the loop continues with the remaining tables. -/
def collectDbModels (env : Env) :
    List String → List (String × Nat) → List Event × List (String × Nat)
  | [], acc => ([], acc)
  | t :: ts, acc =>
      match env.fetch_table_schema t with
      | Except.error e =>
          let rest := collectDbModels env ts acc
          (Event.fetchTableSchema t ::
            Event.errorLog ("Failed to fetch table schema for table " ++ t ++ ": " ++ e) ::
            rest.1, rest.2)
      | Except.ok schema =>
          match env.table_schema_to_hash schema with
          | Except.error e =>
              let rest := collectDbModels env ts acc
              (Event.fetchTableSchema t ::
                Event.errorLog ("Failed to hash table schema for table " ++ t ++ ": " ++ e) ::
                rest.1, rest.2)
          | Except.ok hv =>
              let rest := collectDbModels env ts (insertAssoc acc t hv)
              (Event.fetchTableSchema t :: rest.1, rest.2)

/-- The three maps `check_for_model_changes` has built when it returns (the
Rust function returns `()`; the maps are its observable local state). -/
structure CheckObs where
  current_data_models : List (String × Nat)
  prev_data_models : List (String × Nat)
  db_data_models : List (String × Nat)

/-- `check_for_model_changes` (lines 530–610): hash the current models, hash
the previous-version models (both `.unwrap()`ed), `check_ready().unwrap()`,
then introspect the OLAP tables, logging and skipping per-table failures. -/
def check_for_model_changes (env : Env) (fov : FrameworkObjectVersions) :
    Res CheckObs :=
  match buildModelHashes env.table_schema_to_hash
      (valuesOf fov.current_models.models) [] with
  | none => Res.panic [] "called Result::unwrap on an Err value"
  | some cur =>
      match buildModelHashes env.table_schema_to_hash
          ((fov.previous_version_models.map (fun vsv => valuesOf vsv.2.models)).flatten) [] with
      | none => Res.panic [] "called Result::unwrap on an Err value"
      | some prev =>
          match env.check_ready with
          | Except.error _ =>
              Res.panic [Event.checkReady] "called Result::unwrap on an Err value"
          | Except.ok _ =>
              match env.fetch_table_names with
              | Except.error e =>
                  Res.ok [Event.checkReady, Event.fetchTableNames,
                      Event.errorLog ("Failed to fetch table names: " ++ e)]
                    { current_data_models := cur, prev_data_models := prev,
                      db_data_models := [] }
              | Except.ok tables =>
                  let db := collectDbModels env tables []
                  Res.ok (Event.checkReady :: Event.fetchTableNames :: db.1)
                    { current_data_models := cur, prev_data_models := prev,
                      db_data_models := db.2 }

/-- The old-versions loop of `initialize_project_state` (lines 634–655):
look the version up in `previous_version_models` (`.unwrap()` — panic when
absent) and, only when `core_v2` is off, run `process_objects` for it. -/
def processOldVersions (env : Env) (features : Features)
    (fov : FrameworkObjectVersions) : List String → Res Unit
  | [] => Res.ok [] ()
  | v :: vs =>
      match lookupAssoc fov.previous_version_models v with
      | none => Res.panic [] "called Option::unwrap on a None value"
      | some _ =>
          if features.core_v2 then processOldVersions env features fov vs
          else
            Res.bind (lift (Event.processObjects v) (env.process_objects v))
              (fun _ => processOldVersions env features fov vs)

/-- The version-sync loop of `initialize_project_state` (lines 693–698). -/
def runVersionSyncs (env : Env) : List VersionSync → Res Unit
  | [] => Res.ok [] ()
  | vs :: rest =>
      Res.bind
        (lift (Event.createOrReplaceVersionSync vs.source_version vs.dest_version)
          (env.create_or_replace_version_sync vs))
        (fun _ => runVersionSyncs env rest)

/-- `initialize_project_state` (lines 615–707): load the framework objects,
run `check_for_model_changes`, walk the declared old versions (with
`process_objects` when `core_v2` is off, for old versions and then the
current one), then crawl and create the version syncs.  There is no
linearity/gap check anywhere on this path (the source carries a
`TODO: enforce linearity` comment instead). -/
def initialize_project_state (env : Env) (features : Features)
    (project : Project) : Res (FrameworkObjectVersions × List VersionSync) :=
  Res.bind (lift Event.loadFrameworkObjects env.load_framework_objects) (fun fov =>
  Res.bind (check_for_model_changes env fov) (fun _ =>
  Res.bind (processOldVersions env features fov project.old_versions) (fun _ =>
  Res.bind
    (if features.core_v2 then Res.ok [] ()
     else lift (Event.processObjects fov.current_version)
       (env.process_objects fov.current_version)) (fun _ =>
  Res.bind (lift Event.getAllVersionSyncs env.get_all_version_syncs) (fun vss =>
  Res.bind (runVersionSyncs env vss) (fun _ =>
  Res.ok [Event.verifyStreamingFunctions] (fov, vss)))))))

/-- The `core_v2` executor path shared by both startup modes (dev lines
297–316, prod lines 438–454): get a client, plan, execute the plan, and only
then persist the target infrastructure map. -/
def coreV2Branch (env : Env) : Res Unit :=
  Res.bind (lift Event.getPool env.get_pool) (fun _ =>
  Res.bind (lift Event.planChanges env.plan_changes) (fun plan =>
  Res.bind (lift Event.executeInitialInfraChange env.execute_initial_infra_change)
    (fun _ =>
  lift Event.storeInfrastructureMap
    (env.store_infrastructure_map plan.target_infra_map))))

/-- The legacy tail shared by both startup modes after `fetch_topics` /
`start_all`: function registry, aggregations registry (over the
flag-selected directory), consumption registry. -/
def legacyRegistriesTail (env : Env) (features : Features) (project : Project) :
    Res Unit :=
  Res.bind (lift Event.processStreamingFuncChanges
      env.process_streaming_func_changes) (fun _ =>
  Res.bind (Res.ok [Event.newAggregationRegistry
      (if features.blocks then project.blocks_dir else project.aggregations_dir)]
      ()) (fun _ =>
  Res.bind (lift Event.processAggregationsChanges
      env.process_aggregations_changes) (fun _ =>
  lift Event.processConsumptionChanges env.process_consumption_changes)))

/-- `start_development_mode` (lines 268–407): initialize project state, then
either the `core_v2` plan-based path or the legacy path (`start_all` with
its result discarded by `let _ =`, then `fetch_topics`, then the three
registries), and finally `store_current_state`; the file watcher and web
server that follow make no further calls modelled here. -/
def start_development_mode (env : Env) (features : Features)
    (project : Project) : Res Unit :=
  Res.bind (initialize_project_state env features project) (fun _ =>
  Res.bind
    (if features.core_v2 then coreV2Branch env
     else
       Res.bind (Res.ok [Event.syncingStartAll] ()) (fun _ =>
       Res.bind (lift Event.fetchTopics env.fetch_topics) (fun _ =>
       legacyRegistriesTail env features project)))
    (fun _ =>
  Res.bind (lift Event.getPool env.get_pool) (fun _ =>
  lift Event.storeCurrentState env.store_current_state)))

/-- `start_production_mode` (lines 410–508): like development mode but with
`fetch_topics` before `start_all` on the legacy path and no
`store_current_state` afterwards. -/
def start_production_mode (env : Env) (features : Features)
    (project : Project) : Res Unit :=
  Res.bind (initialize_project_state env features project) (fun _ =>
  if features.core_v2 then coreV2Branch env
  else
    Res.bind (lift Event.fetchTopics env.fetch_topics) (fun _ =>
    Res.bind (Res.ok [Event.syncingStartAll] ()) (fun _ =>
    legacyRegistriesTail env features project)))

/-- The plan-based executor operations named by the spec's `core_v2`
contract. -/
def Event.isV2Op : Event → Bool
  | Event.planChanges => true
  | Event.executeInitialInfraChange => true
  | Event.storeInfrastructureMap => true
  | _ => false

/-- The legacy direct-apply operations named by the spec's `core_v2`
contract. -/
def Event.isLegacyOp : Event → Bool
  | Event.processObjects _ => true
  | Event.syncingStartAll => true
  | Event.processStreamingFuncChanges => true
  | Event.newAggregationRegistry _ => true
  | Event.processAggregationsChanges => true
  | Event.processConsumptionChanges => true
  | _ => false

/-! ## Concrete runs used as witnesses and counterexamples -/

/-- A project with no models and no declared old versions. -/
def fovEmpty : FrameworkObjectVersions :=
  { current_version := "0.0",
    current_models := { models := [], base_path := "app/datamodels" },
    previous_version_models := [] }

/-- An environment in which every external call succeeds trivially; the
hash oracle hashes a schema to its length. -/
def envBase : Env :=
  { load_framework_objects := Except.ok fovEmpty,
    table_schema_to_hash := fun l => Except.ok l.length,
    check_ready := Except.ok (),
    fetch_table_names := Except.ok [],
    fetch_table_schema := fun _ => Except.error "no such table",
    process_objects := fun _ => Except.ok (),
    get_all_version_syncs := Except.ok [],
    create_or_replace_version_sync := fun _ => Except.ok (),
    get_pool := Except.ok (),
    plan_changes := Except.ok { target_infra_map := 0 },
    execute_initial_infra_change := Except.ok (),
    store_infrastructure_map := fun _ => Except.ok (),
    store_current_state := Except.ok (),
    fetch_topics := Except.ok [],
    process_streaming_func_changes := Except.ok (),
    process_aggregations_changes := Except.ok (),
    process_consumption_changes := Except.ok () }

/-- The OLAP is unreachable: `check_ready` fails. -/
def envOlapDown : Env :=
  { envBase with check_ready := Except.error "connection refused" }

/-- Applying the planned changes fails. -/
def envExecFail : Env :=
  { envBase with execute_initial_infra_change := Except.error "DDL failed" }

/-- Introspection sees two tables, one of which cannot be read. -/
def envIntro : Env :=
  { envBase with
    fetch_table_names := Except.ok ["events", "broken"],
    fetch_table_schema := fun t =>
      if t == "broken" then Except.error "timeout"
      else Except.ok [("id", "String")] }

/-- A gap-free violation: old versions `1.1` and `1.2` are both declared
while the migration graph links `1.1` directly to `2.0`. -/
def fovGap : FrameworkObjectVersions :=
  { current_version := "2.0",
    current_models := { models := [], base_path := "app/datamodels" },
    previous_version_models :=
      [("1.1", { models := [], base_path := ".moose/versions/1.1" }),
       ("1.2", { models := [], base_path := ".moose/versions/1.2" })] }

/-- Environment loading the gapped project of `fovGap`. -/
def envGap : Env :=
  { envBase with
    load_framework_objects := Except.ok fovGap,
    get_all_version_syncs :=
      Except.ok [{ source_version := "1.1", dest_version := "2.0" }] }

/-- The gapped project: declared old versions `1.1`, `1.2`. -/
def projectGap : Project :=
  { root := ["proj"], old_versions := ["1.1", "1.2"], is_production := false }

/-- A trivial project. -/
def projectW : Project :=
  { root := ["proj"], old_versions := [], is_production := false }

/-- The `id` column. -/
def colId : Column :=
  { name := "id"
    data_type := "String"
    nullable := false
    primary_key := true }

/-- The `ts` column. -/
def colTs : Column :=
  { name := "ts"
    data_type := "DateTime"
    nullable := false
    primary_key := false }

/-- A model with columns `[id, ts]`. -/
def foIdTs : FrameworkObject :=
  { data_model := { name := "UserActivity", columns := [colId, colTs] }
    topic := "UserActivity_0_0"
    table := "UserActivity" }

/-- The same model with the columns permuted and other metadata changed. -/
def foTsId : FrameworkObject :=
  { data_model := { name := "UserActivity", columns := [colTs, colId] }
    topic := "UserActivity_0_1"
    table := "UserActivity_v2" }

/-- Legacy path, aggregations directory. -/
def featuresLegacy : Features := { core_v2 := false, blocks := false }

/-- Legacy path, blocks directory. -/
def featuresLegacyBlocks : Features := { core_v2 := false, blocks := true }

/-- Plan-based (`core_v2`) path. -/
def featuresV2 : Features := { core_v2 := true, blocks := false }

/-! ## Association-list lemmas -/

theorem lookupAssoc_insertAssoc_self {α : Type} (m : List (String × α))
    (k : String) (v : α) : lookupAssoc (insertAssoc m k v) k = some v := by
  induction m with
  | nil => simp [insertAssoc, lookupAssoc, List.find?]
  | cons kv rest ih =>
      by_cases h : kv.1 = k
      · simp [insertAssoc, lookupAssoc, List.find?, h]
      · have hb : (kv.1 == k) = false := beq_eq_false_iff_ne.mpr h
        simp only [insertAssoc, hb, Bool.false_eq_true, if_false]
        simp only [lookupAssoc, List.find?, hb]
        exact ih

theorem lookupAssoc_insertAssoc_ne {α : Type} (m : List (String × α))
    (k k' : String) (v : α) (h : k' ≠ k) :
    lookupAssoc (insertAssoc m k v) k' = lookupAssoc m k' := by
  have hkk : (k == k') = false := beq_eq_false_iff_ne.mpr (Ne.symm h)
  induction m with
  | nil => simp [insertAssoc, lookupAssoc, List.find?, hkk]
  | cons kv rest ih =>
      by_cases hk : kv.1 = k
      · have hkv : (kv.1 == k') = false := by
          rw [hk]; exact hkk
        simp [insertAssoc, lookupAssoc, List.find?, hk, hkv, hkk]
      · have hb : (kv.1 == k) = false := beq_eq_false_iff_ne.mpr hk
        by_cases hkv : kv.1 = k'
        · simp only [insertAssoc, hb, Bool.false_eq_true, if_false]
          simp [lookupAssoc, List.find?, hkv]
        · have hbv : (kv.1 == k') = false := beq_eq_false_iff_ne.mpr hkv
          simp only [insertAssoc, hb, Bool.false_eq_true, if_false]
          simp only [lookupAssoc, List.find?, hbv]
          exact ih

/-! ## Trace toolkit -/

theorem Res.events_bind_ok {α β : Type} {es : List Event} {a : α} {r : Res α}
    (h : r = Res.ok es a) (f : α → Res β) :
    (Res.bind r f).events = es ++ (f a).events := by
  subst h
  cases hf : f a <;> simp [Res.bind, Res.events, hf]

theorem mem_events_bind {α β : Type} {ev : Event} {r : Res α} {f : α → Res β} :
    ev ∈ (Res.bind r f).events ↔
      ev ∈ r.events ∨ ∃ es a, r = Res.ok es a ∧ ev ∈ (f a).events := by
  cases r with
  | ok es a =>
      rw [Res.events_bind_ok rfl]
      constructor
      · intro h
        rcases List.mem_append.mp h with h | h
        · exact Or.inl h
        · exact Or.inr ⟨es, a, rfl, h⟩
      · intro h
        rcases h with h | ⟨es', a', heq, h⟩
        · exact List.mem_append.mpr (Or.inl h)
        · obtain ⟨rfl, rfl⟩ := Res.ok.inj heq
          exact List.mem_append.mpr (Or.inr h)
  | err es e => simp [Res.bind, Res.events]
  | panic es m => simp [Res.bind, Res.events]

theorem events_lift {α : Type} (ev : Event) (r : Except String α) :
    (lift ev r).events = [ev] := by
  cases r <;> rfl

theorem lift_eq_ok {α : Type} {ev : Event} {r : Except String α}
    {es : List Event} {v : α} :
    lift ev r = Res.ok es v ↔ r = Except.ok v ∧ es = [ev] := by
  cases r <;> simp [lift] <;> aesop

theorem bind_eq_ok {α β : Type} {r : Res α} {f : α → Res β} {es : List Event}
    {v : β} :
    Res.bind r f = Res.ok es v ↔
      ∃ es₁ a es₂, r = Res.ok es₁ a ∧ f a = Res.ok es₂ v ∧ es = es₁ ++ es₂ := by
  cases r with
  | ok es₁ a =>
      cases hf : f a <;> simp [Res.bind, hf] <;> aesop
  | err es e => simp [Res.bind]
  | panic es m => simp [Res.bind]

/-- Shape of the introspection-loop trace: only schema fetches and error
logs. -/
theorem mem_collectDbModels_events (env : Env) :
    ∀ (tables : List String) (acc : List (String × Nat)) (ev : Event),
      ev ∈ (collectDbModels env tables acc).1 →
      (∃ t, ev = Event.fetchTableSchema t) ∨ (∃ m, ev = Event.errorLog m) := by
  intro tables
  induction tables with
  | nil => intro acc ev h; simp [collectDbModels] at h
  | cons t ts ih =>
      intro acc ev h
      unfold collectDbModels at h
      cases hf : env.fetch_table_schema t with
      | error e =>
          rw [hf] at h
          simp only [List.mem_cons] at h
          rcases h with rfl | rfl | h
          · exact Or.inl ⟨t, rfl⟩
          · exact Or.inr ⟨_, rfl⟩
          · exact ih acc ev h
      | ok schema =>
          rw [hf] at h
          dsimp only at h
          cases hh : env.table_schema_to_hash schema with
          | error e =>
              rw [hh] at h
              simp only [List.mem_cons] at h
              rcases h with rfl | rfl | h
              · exact Or.inl ⟨t, rfl⟩
              · exact Or.inr ⟨_, rfl⟩
              · exact ih acc ev h
          | ok hv =>
              rw [hh] at h
              simp only [List.mem_cons] at h
              rcases h with rfl | h
              · exact Or.inl ⟨t, rfl⟩
              · exact ih _ ev h

/-- Shape of the `check_for_model_changes` trace. -/
theorem mem_check_for_model_changes_events (env : Env)
    (fov : FrameworkObjectVersions) (ev : Event)
    (h : ev ∈ (check_for_model_changes env fov).events) :
    ev = Event.checkReady ∨ ev = Event.fetchTableNames ∨
      (∃ t, ev = Event.fetchTableSchema t) ∨ (∃ m, ev = Event.errorLog m) := by
  unfold check_for_model_changes at h
  cases hc : buildModelHashes env.table_schema_to_hash
      (valuesOf fov.current_models.models) [] with
  | none => rw [hc] at h; simp [Res.events] at h
  | some cur =>
      rw [hc] at h
      cases hp : buildModelHashes env.table_schema_to_hash
          ((fov.previous_version_models.map (fun vsv => valuesOf vsv.2.models)).flatten) [] with
      | none => rw [hp] at h; simp [Res.events] at h
      | some prev =>
          rw [hp] at h
          cases hr : env.check_ready with
          | error e => rw [hr] at h; simp [Res.events] at h; simp [h]
          | ok u =>
              rw [hr] at h
              cases ht : env.fetch_table_names with
              | error e =>
                  rw [ht] at h
                  simp only [Res.events, List.mem_cons] at h
                  rcases h with rfl | rfl | rfl | h
                  · simp
                  · simp
                  · exact Or.inr (Or.inr (Or.inr ⟨_, rfl⟩))
                  · simp at h
              | ok tables =>
                  rw [ht] at h
                  simp only [Res.events, List.mem_cons] at h
                  rcases h with rfl | rfl | h
                  · simp
                  · simp
                  · exact Or.inr (Or.inr (mem_collectDbModels_events env tables [] ev h))

/-- Shape of the old-versions-loop trace: only `process_objects` calls. -/
theorem mem_processOldVersions_events (env : Env) (features : Features)
    (fov : FrameworkObjectVersions) :
    ∀ (vs : List String) (ev : Event),
      ev ∈ (processOldVersions env features fov vs).events →
      ∃ v, ev = Event.processObjects v := by
  intro vs
  induction vs with
  | nil => intro ev h; simp [processOldVersions, Res.events] at h
  | cons v vs ih =>
      intro ev h
      unfold processOldVersions at h
      cases hlk : lookupAssoc fov.previous_version_models v with
      | none => rw [hlk] at h; simp [Res.events] at h
      | some sv =>
          rw [hlk] at h
          by_cases hc : features.core_v2
          · rw [if_pos hc] at h
            exact ih ev h
          · rw [if_neg hc] at h
            rcases mem_events_bind.mp h with hl | ⟨es, a, _, hrest⟩
            · rw [events_lift] at hl
              simp at hl
              exact ⟨v, hl⟩
            · exact ih ev hrest

/-- With `core_v2` on, the old-versions loop makes no external calls. -/
theorem processOldVersions_events_core_v2 (env : Env) (features : Features)
    (fov : FrameworkObjectVersions) (hc : features.core_v2 = true) :
    ∀ vs : List String, (processOldVersions env features fov vs).events = [] := by
  intro vs
  induction vs with
  | nil => rfl
  | cons v vs ih =>
      unfold processOldVersions
      cases hlk : lookupAssoc fov.previous_version_models v with
      | none => rfl
      | some sv => simpa [hc] using ih

/-- Shape of the version-sync-loop trace. -/
theorem mem_runVersionSyncs_events (env : Env) :
    ∀ (vss : List VersionSync) (ev : Event),
      ev ∈ (runVersionSyncs env vss).events →
      ∃ s d, ev = Event.createOrReplaceVersionSync s d := by
  intro vss
  induction vss with
  | nil => intro ev h; simp [runVersionSyncs, Res.events] at h
  | cons vs rest ih =>
      intro ev h
      unfold runVersionSyncs at h
      rcases mem_events_bind.mp h with hl | ⟨es, a, _, hrest⟩
      · rw [events_lift] at hl
        simp at hl
        exact ⟨_, _, hl⟩
      · exact ih ev hrest

/-- Shape of the `initialize_project_state` trace. -/
theorem mem_initialize_project_state_events (env : Env) (features : Features)
    (project : Project) (ev : Event)
    (h : ev ∈ (initialize_project_state env features project).events) :
    ev = Event.loadFrameworkObjects ∨ ev = Event.checkReady ∨
      ev = Event.fetchTableNames ∨ (∃ t, ev = Event.fetchTableSchema t) ∨
      (∃ m, ev = Event.errorLog m) ∨ (∃ v, ev = Event.processObjects v) ∨
      ev = Event.getAllVersionSyncs ∨
      (∃ s d, ev = Event.createOrReplaceVersionSync s d) ∨
      ev = Event.verifyStreamingFunctions := by
  unfold initialize_project_state at h
  rcases mem_events_bind.mp h with hl | ⟨_, fov, _, h⟩
  · rw [events_lift] at hl; simp at hl; simp [hl]
  rcases mem_events_bind.mp h with hl | ⟨_, _, _, h⟩
  · rcases mem_check_for_model_changes_events env fov ev hl with h1 | h1 | h1 | h1 <;>
      simp [h1]
  rcases mem_events_bind.mp h with hl | ⟨_, _, _, h⟩
  · rcases mem_processOldVersions_events env features fov _ ev hl with ⟨v, rfl⟩
    simp
  rcases mem_events_bind.mp h with hl | ⟨_, _, _, h⟩
  · by_cases hc : features.core_v2
    · rw [if_pos hc] at hl; simp [Res.events] at hl
    · rw [if_neg hc] at hl
      rw [events_lift] at hl; simp at hl; simp [hl]
  rcases mem_events_bind.mp h with hl | ⟨_, vss, _, h⟩
  · rw [events_lift] at hl; simp at hl; simp [hl]
  rcases mem_events_bind.mp h with hl | ⟨_, _, _, h⟩
  · rcases mem_runVersionSyncs_events env _ ev hl with ⟨s, d, rfl⟩
    simp
  · simp [Res.events] at h
    simp [h]

/-- With `core_v2` on, `initialize_project_state` never calls
`process_objects`. -/
theorem initialize_project_state_no_processObjects (env : Env)
    (features : Features) (project : Project) (hc : features.core_v2 = true)
    (v : String) :
    Event.processObjects v ∉
      (initialize_project_state env features project).events := by
  intro h
  unfold initialize_project_state at h
  rcases mem_events_bind.mp h with hl | ⟨_, fov, _, h⟩
  · rw [events_lift] at hl; simp at hl
  rcases mem_events_bind.mp h with hl | ⟨_, _, _, h⟩
  · rcases mem_check_for_model_changes_events env fov _ hl with h1 | h1 | ⟨t, h1⟩ | ⟨m, h1⟩ <;>
      simp at h1
  rcases mem_events_bind.mp h with hl | ⟨_, _, _, h⟩
  · rw [processOldVersions_events_core_v2 env features fov hc] at hl
    simp at hl
  rcases mem_events_bind.mp h with hl | ⟨_, _, _, h⟩
  · rw [if_pos hc] at hl; simp [Res.events] at hl
  rcases mem_events_bind.mp h with hl | ⟨_, vss, _, h⟩
  · rw [events_lift] at hl; simp at hl
  rcases mem_events_bind.mp h with hl | ⟨_, _, _, h⟩
  · rcases mem_runVersionSyncs_events env _ _ hl with ⟨s, d, h1⟩
    simp at h1
  · simp [Res.events] at h

/-- Shape of the legacy registries tail trace. -/
theorem mem_legacyRegistriesTail_events (env : Env) (features : Features)
    (project : Project) (ev : Event)
    (h : ev ∈ (legacyRegistriesTail env features project).events) :
    ev = Event.processStreamingFuncChanges ∨
      ev = Event.newAggregationRegistry
        (if features.blocks then project.blocks_dir else project.aggregations_dir) ∨
      ev = Event.processAggregationsChanges ∨
      ev = Event.processConsumptionChanges := by
  unfold legacyRegistriesTail at h
  rcases mem_events_bind.mp h with hl | ⟨_, _, _, h⟩
  · rw [events_lift] at hl; simp at hl; simp [hl]
  rcases mem_events_bind.mp h with hl | ⟨_, _, _, h⟩
  · simp [Res.events] at hl; simp [hl]
  rcases mem_events_bind.mp h with hl | ⟨_, _, _, h⟩
  · rw [events_lift] at hl; simp at hl; simp [hl]
  · rw [events_lift] at h; simp at h; simp [h]

/-- Shape of the `core_v2` branch trace. -/
theorem mem_coreV2Branch_events (env : Env) (ev : Event)
    (h : ev ∈ (coreV2Branch env).events) :
    ev = Event.getPool ∨ ev = Event.planChanges ∨
      ev = Event.executeInitialInfraChange ∨
      ev = Event.storeInfrastructureMap := by
  unfold coreV2Branch at h
  rcases mem_events_bind.mp h with hl | ⟨_, _, _, h⟩
  · rw [events_lift] at hl; simp at hl; simp [hl]
  rcases mem_events_bind.mp h with hl | ⟨_, plan, _, h⟩
  · rw [events_lift] at hl; simp at hl; simp [hl]
  rcases mem_events_bind.mp h with hl | ⟨_, _, _, h⟩
  · rw [events_lift] at hl; simp at hl; simp [hl]
  · rw [events_lift] at h; simp at h; simp [h]

/-- The store of the infrastructure map in the `core_v2` branch is reached
only behind a successful `execute_initial_infra_change`. -/
theorem coreV2Branch_store_implies_execute_ok (env : Env)
    (h : Event.storeInfrastructureMap ∈ (coreV2Branch env).events) :
    env.execute_initial_infra_change = Except.ok () := by
  unfold coreV2Branch at h
  rcases mem_events_bind.mp h with hl | ⟨_, _, _, h⟩
  · rw [events_lift] at hl; simp at hl
  rcases mem_events_bind.mp h with hl | ⟨_, plan, _, h⟩
  · rw [events_lift] at hl; simp at hl
  rcases mem_events_bind.mp h with hl | ⟨_, u, hok, h⟩
  · rw [events_lift] at hl; simp at hl
  · rcases lift_eq_ok.mp hok with ⟨hexec, _⟩
    cases u
    exact hexec

theorem isOk_exists {α : Type} {r : Res α} (h : r.isOk = true) :
    ∃ es v, r = Res.ok es v := by
  cases r with
  | ok es v => exact ⟨es, v, rfl⟩
  | err es e => simp [Res.isOk] at h
  | panic es m => simp [Res.isOk] at h

/-- A successful `core_v2` branch makes exactly these four calls, in this
order. -/
theorem coreV2Branch_events_of_ok (env : Env) {es : List Event} {v : Unit}
    (h : coreV2Branch env = Res.ok es v) :
    es = [Event.getPool, Event.planChanges, Event.executeInitialInfraChange,
      Event.storeInfrastructureMap] := by
  unfold coreV2Branch at h
  rcases bind_eq_ok.mp h with ⟨e1, a1, e2, h1, h2, rfl⟩
  rcases lift_eq_ok.mp h1 with ⟨_, rfl⟩
  rcases bind_eq_ok.mp h2 with ⟨e3, plan, e4, h3, h4, rfl⟩
  rcases lift_eq_ok.mp h3 with ⟨_, rfl⟩
  rcases bind_eq_ok.mp h4 with ⟨e5, a5, e6, h5, h6, rfl⟩
  rcases lift_eq_ok.mp h5 with ⟨_, rfl⟩
  rcases lift_eq_ok.mp h6 with ⟨_, rfl⟩
  rfl

/-- A successful legacy registries tail makes exactly these calls, the
aggregations registry over the flag-selected directory. -/
theorem legacyRegistriesTail_events_of_ok (env : Env) (features : Features)
    (project : Project) {es : List Event} {v : Unit}
    (h : legacyRegistriesTail env features project = Res.ok es v) :
    es = [Event.processStreamingFuncChanges,
      Event.newAggregationRegistry
        (if features.blocks then project.blocks_dir else project.aggregations_dir),
      Event.processAggregationsChanges, Event.processConsumptionChanges] := by
  unfold legacyRegistriesTail at h
  rcases bind_eq_ok.mp h with ⟨e1, a1, e2, h1, h2, rfl⟩
  rcases lift_eq_ok.mp h1 with ⟨_, rfl⟩
  rcases bind_eq_ok.mp h2 with ⟨e3, a3, e4, h3, h4, rfl⟩
  rcases bind_eq_ok.mp h4 with ⟨e5, a5, e6, h5, h6, rfl⟩
  rcases lift_eq_ok.mp h5 with ⟨_, rfl⟩
  rcases lift_eq_ok.mp h6 with ⟨_, rfl⟩
  obtain ⟨rfl, rfl⟩ := Res.ok.inj h3
  rfl

/-- When `core_v2` is off, a successful `initialize_project_state` ran
`process_objects` for the current version. -/
theorem initialize_project_state_ok_processObjects (env : Env)
    (features : Features) (project : Project)
    {es : List Event} {v : FrameworkObjectVersions × List VersionSync}
    (hc : features.core_v2 = false)
    (h : initialize_project_state env features project = Res.ok es v) :
    ∃ ver, Event.processObjects ver ∈ es := by
  unfold initialize_project_state at h
  rcases bind_eq_ok.mp h with ⟨e1, fov, e2, h1, h2, rfl⟩
  rcases bind_eq_ok.mp h2 with ⟨e3, a3, e4, h3, h4, rfl⟩
  rcases bind_eq_ok.mp h4 with ⟨e5, a5, e6, h5, h6, rfl⟩
  rcases bind_eq_ok.mp h6 with ⟨e7, a7, e8, h7, h8, rfl⟩
  rw [hc] at h7
  simp only [Bool.false_eq_true, if_false] at h7
  rcases lift_eq_ok.mp h7 with ⟨_, rfl⟩
  exact ⟨fov.current_version, by simp⟩

/-! ## Claim theorems -/

/-- **C9**: for every `Routine`, `run_explicit` returns exactly the value
`run_silent` produces — the identical `RoutineSuccess` on success and the
identical `RoutineFailure` on failure — differing only in the displayed
messages, and `run RunMode.Explicit` therefore coincides with `run_silent`
as a function from routine state to `Result`. -/
theorem routine_run_explicit_eq_run_silent (r : Routine) (mode : RunMode) :
    (Routine.run_explicit r).2 = r.run_silent ∧
    (Routine.run r mode).2 = r.run_silent := by
  cases mode
  cases h : r.run_silent <;>
    simp [Routine.run, Routine.run_explicit, h]

/-- **C10**: for a UTF-8 path the child argv is exactly the seven elements
`[path, db_name, host, host_port, user, password, use_ssl]` in that order,
and `run` returns `Err(AggregationError)` exactly when spawning the Python
program fails (a successful spawn with both handles present yields `Ok`);
for a non-UTF-8 path the `to_str().unwrap()` panics before any spawn. -/
theorem aggregation_run_argv_and_errors
    (spawn : List String → Except String Child) (cfg : ClickHouseConfig)
    (path : RustPath) :
    (∀ p, path.to_str = some p →
      (aggregation_run spawn cfg path).1 =
        [AggEvent.spawnCalled
          [p, cfg.db_name, cfg.host, toString cfg.host_port, cfg.user,
            cfg.password, toString cfg.use_ssl]] ∧
      ((aggregation_run spawn cfg path).2.isErr = true ↔
        ∃ e, spawn (aggregationArgs cfg p) = Except.error e) ∧
      (∀ child, spawn (aggregationArgs cfg p) = Except.ok child →
        child.stdout = some () → child.stderr = some () →
        (aggregation_run spawn cfg path).2 = AggOutcome.ok child)) ∧
    (path.to_str = none →
      (aggregation_run spawn cfg path).1 = [] ∧
      (aggregation_run spawn cfg path).2.isPanic = true) := by
  constructor
  · intro p hp
    refine ⟨?_, ?_, ?_⟩
    · cases hs : spawn (aggregationArgs cfg p) with
      | error e =>
          simp only [aggregation_run, hp, hs]
          simp [aggregationArgs]
      | ok child =>
          cases hso : child.stdout with
          | none =>
              simp only [aggregation_run, hp, hs, hso]
              simp [aggregationArgs]
          | some u =>
              cases hse : child.stderr with
              | none =>
                  simp only [aggregation_run, hp, hs, hso, hse]
                  simp [aggregationArgs]
              | some u' =>
                  simp only [aggregation_run, hp, hs, hso, hse]
                  simp [aggregationArgs]
    · cases hs : spawn (aggregationArgs cfg p) with
      | error e =>
          simp only [aggregation_run, hp, hs]
          simp [AggOutcome.isErr, hs]
      | ok child =>
          cases hso : child.stdout with
          | none =>
              simp only [aggregation_run, hp, hs, hso]
              simp [AggOutcome.isErr, hs]
          | some u =>
              cases hse : child.stderr with
              | none =>
                  simp only [aggregation_run, hp, hs, hso, hse]
                  simp [AggOutcome.isErr, hs]
              | some u' =>
                  simp only [aggregation_run, hp, hs, hso, hse]
                  simp [AggOutcome.isErr, hs]
    · intro child hs hso hse
      simp only [aggregation_run, hp, hs, hso, hse]
  · intro hp
    simp [aggregation_run, hp, AggOutcome.isPanic]

/-- **C10** witness: with a spawn oracle that fails, a UTF-8 path produces
exactly the seven-element argv and an `AggregationError`. -/
theorem aggregation_run_argv_and_errors_witness :
    (aggregation_run (fun _ => Except.error "spawn failed")
        { db_name := "db", host := "localhost", host_port := 18123,
          user := "u", password := "pw", use_ssl := false }
        { to_str := some "/proj/aggregations" }).1 =
      [AggEvent.spawnCalled
        ["/proj/aggregations", "db", "localhost", "18123", "u", "pw", "false"]] ∧
    (aggregation_run (fun _ => Except.error "spawn failed")
        { db_name := "db", host := "localhost", host_port := 18123,
          user := "u", password := "pw", use_ssl := false }
        { to_str := some "/proj/aggregations" }).2.isErr = true := by
  have h := (aggregation_run_argv_and_errors
    (fun _ => Except.error "spawn failed")
    { db_name := "db", host := "localhost", host_port := 18123,
      user := "u", password := "pw", use_ssl := false }
    { to_str := some "/proj/aggregations" }).1 "/proj/aggregations" rfl
  exact ⟨h.1, h.2.1.mpr ⟨"spawn failed", rfl⟩⟩

/-- **C6**: for one child, every possible sink trace (any interleaving of
the two forwarding tasks) delivers whole lines; restricted to either
stream, the trace is exactly that stream's lines in emission order, so the
streams never interleave within a line and each stream arrives in order. -/
theorem child_output_forwarded_in_order (c : Nat)
    (stdout_lines stderr_lines : List String) (trace : List SinkEvent)
    (h : Merge (forwardTask c StreamTag.stdout stdout_lines)
      (forwardTask c StreamTag.stderr stderr_lines) trace) :
    trace.filter (fun ev => ev.stream == StreamTag.stdout) =
      forwardTask c StreamTag.stdout stdout_lines ∧
    trace.filter (fun ev => ev.stream == StreamTag.stderr) =
      forwardTask c StreamTag.stderr stderr_lines := by
  constructor
  · refine h.filter_left ?_ ?_
    · intro x hx
      rcases List.mem_map.mp hx with ⟨l, _, rfl⟩
      rfl
    · intro y hy
      rcases List.mem_map.mp hy with ⟨l, _, rfl⟩
      rfl
  · refine h.filter_right ?_ ?_
    · intro x hx
      rcases List.mem_map.mp hx with ⟨l, _, rfl⟩
      rfl
    · intro y hy
      rcases List.mem_map.mp hy with ⟨l, _, rfl⟩
      rfl

/-- **C6** witness: a concrete interleaving of two stdout lines and one
stderr line filters back to the per-stream traces in order. -/
theorem child_output_forwarded_in_order_witness :
    ([{ child := 0, stream := StreamTag.stdout, line := "a" },
      { child := 0, stream := StreamTag.stderr, line := "x" },
      { child := 0, stream := StreamTag.stdout, line := "b" }] :
        List SinkEvent).filter (fun ev => ev.stream == StreamTag.stdout) =
      forwardTask 0 StreamTag.stdout ["a", "b"] ∧
    ([{ child := 0, stream := StreamTag.stdout, line := "a" },
      { child := 0, stream := StreamTag.stderr, line := "x" },
      { child := 0, stream := StreamTag.stdout, line := "b" }] :
        List SinkEvent).filter (fun ev => ev.stream == StreamTag.stderr) =
      forwardTask 0 StreamTag.stderr ["x"] :=
  child_output_forwarded_in_order 0 ["a", "b"] ["x"] _
    (Merge.left (Merge.right (Merge.left Merge.nil)))

/-- **C5**: the schema hash is computed from the sorted
`(column name, data type)` pairs, so it is invariant under any permutation
of the column list, and — the hash ignoring all other metadata — two
objects with the same model name and permuted columns contribute identical
entries to the change-detection map even when topic, table or column order
differ. -/
theorem schema_hash_column_order_invariant
    (h : List (String × String) → Except String Nat)
    (fo₁ fo₂ : FrameworkObject)
    (hperm : fo₁.data_model.columns.Perm fo₂.data_model.columns) :
    modelHash h fo₁ = modelHash h fo₂ ∧
    (fo₁.data_model.name = fo₂.data_model.name →
      buildModelHashes h [fo₁] [] = buildModelHashes h [fo₂] []) := by
  have hpairs : (columnPairs fo₁).Perm (columnPairs fo₂) := by
    unfold columnPairs
    exact hperm.map _
  have hde : dataElements fo₁ = dataElements fo₂ := by
    unfold dataElements
    exact sortPairs_perm hpairs
  constructor
  · unfold modelHash
    rw [hde]
  · intro hname
    unfold buildModelHashes dataElements at hde ⊢
    rw [hde, hname]

/-- **C5** witness: two objects with the same columns in opposite order and
different topic/table metadata hash identically. -/
theorem schema_hash_column_order_invariant_witness :
    modelHash (fun l => Except.ok l.length) foIdTs =
      modelHash (fun l => Except.ok l.length) foTsId :=
  (schema_hash_column_order_invariant (fun l => Except.ok l.length) foIdTs
    foTsId (List.Perm.swap _ _ _)).1

/-- **C3** counterexample: the claim that `check_for_model_changes` surfaces
OLAP unreachability as a recoverable error value rather than panicking is
false — with `check_ready` failing (OLAP unreachable) the function panics on
the `.unwrap()`. -/
theorem check_for_model_changes_never_panics_counterexample :
    ¬ (∀ (env : Env) (fov : FrameworkObjectVersions),
        (check_for_model_changes env fov).isPanic = false) := by
  intro hclaim
  have h := hclaim envOlapDown fovEmpty
  have hpanic : (check_for_model_changes envOlapDown fovEmpty).isPanic = true := rfl
  rw [hpanic] at h
  exact Bool.noConfusion h

/-- **C3** (amended): when the OLAP readiness check fails,
`check_for_model_changes` panics on the `.unwrap()` (a process abort, not a
recoverable error value); when the readiness check succeeds the pass
completes normally even if listing the tables fails; and in every outcome
the function performs no State-Store write, so the persisted state is
unchanged. -/
theorem check_for_model_changes_olap_unreachable (env : Env)
    (fov : FrameworkObjectVersions) (cur prev : List (String × Nat))
    (hcur : buildModelHashes env.table_schema_to_hash
      (valuesOf fov.current_models.models) [] = some cur)
    (hprev : buildModelHashes env.table_schema_to_hash
      ((fov.previous_version_models.map
        (fun vsv => valuesOf vsv.2.models)).flatten) [] = some prev) :
    (∀ e, env.check_ready = Except.error e →
      (check_for_model_changes env fov).isPanic = true) ∧
    (env.check_ready = Except.ok () →
      (check_for_model_changes env fov).isOk = true) ∧
    (∀ ev ∈ (check_for_model_changes env fov).events,
      ev ≠ Event.storeInfrastructureMap ∧ ev ≠ Event.storeCurrentState) := by
  refine ⟨?_, ?_, ?_⟩
  · intro e he
    simp only [check_for_model_changes, hcur, hprev, he]
    rfl
  · intro hok
    cases ht : env.fetch_table_names with
    | error e =>
        simp only [check_for_model_changes, hcur, hprev, hok, ht]
        rfl
    | ok tables =>
        simp only [check_for_model_changes, hcur, hprev, hok, ht]
        rfl
  · intro ev hev
    rcases mem_check_for_model_changes_events env fov ev hev with
      h1 | h1 | ⟨t, h1⟩ | ⟨m, h1⟩ <;> subst h1 <;>
      exact ⟨by simp, by simp⟩

/-- **C3** witness: a concrete unreachable-OLAP run panics. -/
theorem check_for_model_changes_olap_unreachable_witness :
    (check_for_model_changes envOlapDown fovEmpty).isPanic = true :=
  (check_for_model_changes_olap_unreachable envOlapDown fovEmpty [] []
    rfl rfl).1 "connection refused" rfl

/-- **C2**: the loader accepts a gap in the declared versions.  With old
versions `1.1` and `1.2` both declared while the migration graph links
`1.1` directly to `2.0`, `initialize_project_state` succeeds and returns a
`FrameworkObjectVersions` — there is no `VersionGapError` (the source only
carries a `TODO: enforce linearity` comment where the spec requires the
check). -/
theorem initialize_project_state_accepts_version_gap :
    (initialize_project_state envGap featuresLegacy projectGap).isOk = true ∧
    ∃ es, initialize_project_state envGap featuresLegacy projectGap =
      Res.ok es (fovGap, [{ source_version := "1.1", dest_version := "2.0" }]) := by
  constructor
  · rfl
  · exact ⟨_, rfl⟩

/-- **C1**: in both startup modes, `store_infrastructure_map` runs only
after `execute_initial_infra_change` has returned successfully — a store
event in the run's trace forces the execute step to have succeeded, and
whenever applying the planned changes fails the infrastructure map is not
persisted. -/
theorem store_infrastructure_map_only_after_execute (env : Env)
    (features : Features) (project : Project) :
    (Event.storeInfrastructureMap ∈
        (start_development_mode env features project).events →
      env.execute_initial_infra_change = Except.ok ()) ∧
    (Event.storeInfrastructureMap ∈
        (start_production_mode env features project).events →
      env.execute_initial_infra_change = Except.ok ()) ∧
    (∀ e, env.execute_initial_infra_change = Except.error e →
      Event.storeInfrastructureMap ∉
        (start_development_mode env features project).events ∧
      Event.storeInfrastructureMap ∉
        (start_production_mode env features project).events) := by
  have hdev : Event.storeInfrastructureMap ∈
      (start_development_mode env features project).events →
      env.execute_initial_infra_change = Except.ok () := by
    intro h
    unfold start_development_mode at h
    rcases mem_events_bind.mp h with hinit | ⟨_, _, _, h⟩
    · rcases mem_initialize_project_state_events env features project _ hinit with
        h1 | h1 | h1 | ⟨t, h1⟩ | ⟨m, h1⟩ | ⟨v, h1⟩ | h1 | ⟨s, d, h1⟩ | h1 <;>
        simp at h1
    rcases mem_events_bind.mp h with hbr | ⟨_, _, _, h⟩
    · by_cases hc : features.core_v2
      · rw [if_pos hc] at hbr
        exact coreV2Branch_store_implies_execute_ok env hbr
      · rw [if_neg hc] at hbr
        rcases mem_events_bind.mp hbr with hl | ⟨_, _, _, hbr⟩
        · simp [Res.events] at hl
        rcases mem_events_bind.mp hbr with hl | ⟨_, _, _, hbr⟩
        · rw [events_lift] at hl
          simp at hl
        · rcases mem_legacyRegistriesTail_events env features project _ hbr with
            h1 | h1 | h1 | h1 <;> simp at h1
    · rcases mem_events_bind.mp h with hl | ⟨_, _, _, h⟩
      · rw [events_lift] at hl
        simp at hl
      · rw [events_lift] at h
        simp at h
  have hprod : Event.storeInfrastructureMap ∈
      (start_production_mode env features project).events →
      env.execute_initial_infra_change = Except.ok () := by
    intro h
    unfold start_production_mode at h
    rcases mem_events_bind.mp h with hinit | ⟨_, _, _, h⟩
    · rcases mem_initialize_project_state_events env features project _ hinit with
        h1 | h1 | h1 | ⟨t, h1⟩ | ⟨m, h1⟩ | ⟨v, h1⟩ | h1 | ⟨s, d, h1⟩ | h1 <;>
        simp at h1
    · by_cases hc : features.core_v2
      · rw [if_pos hc] at h
        exact coreV2Branch_store_implies_execute_ok env h
      · rw [if_neg hc] at h
        rcases mem_events_bind.mp h with hl | ⟨_, _, _, h⟩
        · rw [events_lift] at hl
          simp at hl
        rcases mem_events_bind.mp h with hl | ⟨_, _, _, h⟩
        · simp [Res.events] at hl
        · rcases mem_legacyRegistriesTail_events env features project _ h with
            h1 | h1 | h1 | h1 <;> simp at h1
  refine ⟨hdev, hprod, ?_⟩
  intro e he
  constructor
  · intro hmem
    have hok := hdev hmem
    rw [he] at hok
    exact Except.noConfusion hok
  · intro hmem
    have hok := hprod hmem
    rw [he] at hok
    exact Except.noConfusion hok

/-- **C1** witness: a concrete run in which applying the plan fails stores
no infrastructure map in either mode. -/
theorem store_infrastructure_map_only_after_execute_witness :
    Event.storeInfrastructureMap ∉
      (start_development_mode envExecFail featuresV2 projectW).events ∧
    Event.storeInfrastructureMap ∉
      (start_production_mode envExecFail featuresV2 projectW).events :=
  (store_infrastructure_map_only_after_execute envExecFail featuresV2
    projectW).2.2 "DDL failed" rfl

/-- **C4**: exactly one executor path is taken per run, selected by the
`core_v2` flag, and the paths' side effects are never mixed: with the flag
set no legacy operation (`process_objects`, `start_all`, the per-registry
`process_*_changes` setup) appears in the trace and a successful run makes
all three plan-based calls; with the flag unset no plan-based operation
(`plan_changes`, `execute_initial_infra_change`, `store_infrastructure_map`)
appears and a successful run makes the legacy calls. -/
theorem core_v2_selects_exactly_one_path (env : Env) (features : Features)
    (project : Project) :
    (features.core_v2 = true →
      ∀ ev ∈ (start_development_mode env features project).events,
        ev.isLegacyOp = false) ∧
    (features.core_v2 = false →
      ∀ ev ∈ (start_development_mode env features project).events,
        ev.isV2Op = false) ∧
    (features.core_v2 = true →
      (start_development_mode env features project).isOk = true →
      Event.planChanges ∈ (start_development_mode env features project).events ∧
      Event.executeInitialInfraChange ∈
        (start_development_mode env features project).events ∧
      Event.storeInfrastructureMap ∈
        (start_development_mode env features project).events) ∧
    (features.core_v2 = false →
      (start_development_mode env features project).isOk = true →
      Event.syncingStartAll ∈ (start_development_mode env features project).events ∧
      Event.processStreamingFuncChanges ∈
        (start_development_mode env features project).events ∧
      Event.processAggregationsChanges ∈
        (start_development_mode env features project).events ∧
      Event.processConsumptionChanges ∈
        (start_development_mode env features project).events ∧
      ∃ v, Event.processObjects v ∈
        (start_development_mode env features project).events) := by
  refine ⟨?_, ?_, ?_, ?_⟩
  · intro hc ev hmem
    unfold start_development_mode at hmem
    rcases mem_events_bind.mp hmem with hinit | ⟨_, _, _, hmem⟩
    · rcases mem_initialize_project_state_events env features project _ hinit with
        h1 | h1 | h1 | ⟨t, h1⟩ | ⟨m, h1⟩ | ⟨v, h1⟩ | h1 | ⟨s, d, h1⟩ | h1
      · subst h1; rfl
      · subst h1; rfl
      · subst h1; rfl
      · subst h1; rfl
      · subst h1; rfl
      · subst h1
        exact absurd hinit
          (initialize_project_state_no_processObjects env features project hc v)
      · subst h1; rfl
      · subst h1; rfl
      · subst h1; rfl
    rcases mem_events_bind.mp hmem with hbr | ⟨_, _, _, hmem⟩
    · rw [if_pos hc] at hbr
      rcases mem_coreV2Branch_events env _ hbr with h1 | h1 | h1 | h1 <;>
        subst h1 <;> rfl
    · rcases mem_events_bind.mp hmem with hl | ⟨_, _, _, hmem⟩
      · rw [events_lift] at hl
        simp at hl
        subst hl; rfl
      · rw [events_lift] at hmem
        simp at hmem
        subst hmem; rfl
  · intro hc ev hmem
    unfold start_development_mode at hmem
    rcases mem_events_bind.mp hmem with hinit | ⟨_, _, _, hmem⟩
    · rcases mem_initialize_project_state_events env features project _ hinit with
        h1 | h1 | h1 | ⟨t, h1⟩ | ⟨m, h1⟩ | ⟨v, h1⟩ | h1 | ⟨s, d, h1⟩ | h1 <;>
        (subst h1; rfl)
    rcases mem_events_bind.mp hmem with hbr | ⟨_, _, _, hmem⟩
    · rw [if_neg (by simp [hc])] at hbr
      rcases mem_events_bind.mp hbr with hl | ⟨_, _, _, hbr⟩
      · simp [Res.events] at hl
        subst hl; rfl
      rcases mem_events_bind.mp hbr with hl | ⟨_, _, _, hbr⟩
      · rw [events_lift] at hl
        simp at hl
        subst hl; rfl
      · rcases mem_legacyRegistriesTail_events env features project _ hbr with
          h1 | h1 | h1 | h1 <;> (subst h1; rfl)
    · rcases mem_events_bind.mp hmem with hl | ⟨_, _, _, hmem⟩
      · rw [events_lift] at hl
        simp at hl
        subst hl; rfl
      · rw [events_lift] at hmem
        simp at hmem
        subst hmem; rfl
  · intro hc hok
    obtain ⟨es, v, hdev⟩ := isOk_exists hok
    rw [hdev]
    simp only [Res.events]
    unfold start_development_mode at hdev
    rw [if_pos hc] at hdev
    rcases bind_eq_ok.mp hdev with ⟨e1, a1, e2, hinit, hrest, rfl⟩
    rcases bind_eq_ok.mp hrest with ⟨e3, a3, e4, hbr, htail, rfl⟩
    have hbre := coreV2Branch_events_of_ok env hbr
    subst hbre
    refine ⟨?_, ?_, ?_⟩ <;> simp
  · intro hc hok
    obtain ⟨es, v, hdev⟩ := isOk_exists hok
    rw [hdev]
    simp only [Res.events]
    unfold start_development_mode at hdev
    rw [if_neg (by simp [hc])] at hdev
    rcases bind_eq_ok.mp hdev with ⟨e1, a1, e2, hinit, hrest, rfl⟩
    rcases bind_eq_ok.mp hrest with ⟨e3, a3, e4, hbr, hstore, rfl⟩
    rcases bind_eq_ok.mp hbr with ⟨e5, a5, e6, hsync, hbr2, rfl⟩
    obtain ⟨rfl, rfl⟩ := Res.ok.inj hsync
    rcases bind_eq_ok.mp hbr2 with ⟨e7, a7, e8, hft, htail, rfl⟩
    have htl := legacyRegistriesTail_events_of_ok env features project htail
    subst htl
    obtain ⟨ver, hver⟩ :=
      initialize_project_state_ok_processObjects env features project hc hinit
    refine ⟨?_, ?_, ?_, ?_, ⟨ver, ?_⟩⟩
    · simp
    · simp
    · simp
    · simp
    · exact List.mem_append.mpr (Or.inl hver)

/-- **C4** witness: a successful `core_v2` development run contains all
three plan-based operations. -/
theorem core_v2_selects_exactly_one_path_witness :
    Event.planChanges ∈
      (start_development_mode envBase featuresV2 projectW).events ∧
    Event.executeInitialInfraChange ∈
      (start_development_mode envBase featuresV2 projectW).events ∧
    Event.storeInfrastructureMap ∈
      (start_development_mode envBase featuresV2 projectW).events :=
  (core_v2_selects_exactly_one_path envBase featuresV2 projectW).2.2.1 rfl rfl

/-- A table whose schema a run fails to fetch is never entered into
`db_data_models`. -/
theorem collectDbModels_skips_failing (env : Env) (t e : String)
    (ht : env.fetch_table_schema t = Except.error e) :
    ∀ (ts : List String) (acc : List (String × Nat)),
      lookupAssoc (collectDbModels env ts acc).2 t = lookupAssoc acc t := by
  intro ts
  induction ts with
  | nil => intro acc; rfl
  | cons w ws ih =>
      intro acc
      by_cases hw : w = t
      · subst hw
        unfold collectDbModels
        rw [ht]
        dsimp only
        exact ih acc
      · cases hf : env.fetch_table_schema w with
        | error e2 =>
            unfold collectDbModels
            rw [hf]
            dsimp only
            exact ih acc
        | ok sch =>
            cases hg : env.table_schema_to_hash sch with
            | error e3 =>
                unfold collectDbModels
                rw [hf]
                dsimp only
                rw [hg]
                dsimp only
                exact ih acc
            | ok hw2 =>
                unfold collectDbModels
                rw [hf]
                dsimp only
                rw [hg]
                dsimp only
                rw [ih _]
                exact lookupAssoc_insertAssoc_ne acc w t hw2
                  (fun heq => hw heq.symm)

/-- Once a table's hash is in the accumulator with the value the oracles
deterministically produce, the rest of the loop preserves it. -/
theorem collectDbModels_lookup_stable (env : Env) (u : String)
    (s : List (String × String)) (hv : Nat)
    (hs : env.fetch_table_schema u = Except.ok s)
    (hh : env.table_schema_to_hash s = Except.ok hv) :
    ∀ (ts : List String) (acc : List (String × Nat)),
      lookupAssoc acc u = some hv →
      lookupAssoc (collectDbModels env ts acc).2 u = some hv := by
  intro ts
  induction ts with
  | nil => intro acc hacc; exact hacc
  | cons w ws ih =>
      intro acc hacc
      by_cases hw : w = u
      · subst hw
        unfold collectDbModels
        rw [hs]
        dsimp only
        rw [hh]
        dsimp only
        exact ih _ (lookupAssoc_insertAssoc_self acc w hv)
      · cases hf : env.fetch_table_schema w with
        | error e =>
            unfold collectDbModels
            rw [hf]
            dsimp only
            exact ih acc hacc
        | ok sch =>
            cases hg : env.table_schema_to_hash sch with
            | error e2 =>
                unfold collectDbModels
                rw [hf]
                dsimp only
                rw [hg]
                dsimp only
                exact ih acc hacc
            | ok hw2 =>
                unfold collectDbModels
                rw [hf]
                dsimp only
                rw [hg]
                dsimp only
                refine ih _ ?_
                rw [lookupAssoc_insertAssoc_ne acc w u hw2
                  (fun heq => hw heq.symm)]
                exact hacc

/-- Every table in the list whose fetch and hash succeed ends up in
`db_data_models`. -/
theorem collectDbModels_collects (env : Env) (u : String)
    (s : List (String × String)) (hv : Nat)
    (hs : env.fetch_table_schema u = Except.ok s)
    (hh : env.table_schema_to_hash s = Except.ok hv) :
    ∀ (ts : List String), u ∈ ts → ∀ acc,
      lookupAssoc (collectDbModels env ts acc).2 u = some hv := by
  intro ts
  induction ts with
  | nil => intro hu; exact absurd hu (List.not_mem_nil u)
  | cons w ws ih =>
      intro hu acc
      by_cases hw : w = u
      · subst hw
        unfold collectDbModels
        rw [hs]
        dsimp only
        rw [hh]
        dsimp only
        exact collectDbModels_lookup_stable env w s hv hs hh ws _
          (lookupAssoc_insertAssoc_self acc w hv)
      · have hu' : u ∈ ws := by
          rcases List.mem_cons.mp hu with rfl | h
          · exact absurd rfl hw
          · exact h
        cases hf : env.fetch_table_schema w with
        | error e =>
            unfold collectDbModels
            rw [hf]
            dsimp only
            exact ih hu' acc
        | ok sch =>
            cases hg : env.table_schema_to_hash sch with
            | error e2 =>
                unfold collectDbModels
                rw [hf]
                dsimp only
                rw [hg]
                dsimp only
                exact ih hu' acc
            | ok hw2 =>
                unfold collectDbModels
                rw [hf]
                dsimp only
                rw [hg]
                dsimp only
                exact ih hu' _

/-- A failing table is recorded: the loop logs an `error!` line for it. -/
theorem collectDbModels_logs_failing (env : Env) (t e : String)
    (ht : env.fetch_table_schema t = Except.error e) :
    ∀ (ts : List String) (acc : List (String × Nat)), t ∈ ts →
      ∃ m, Event.errorLog m ∈ (collectDbModels env ts acc).1 := by
  intro ts
  induction ts with
  | nil => intro acc hu; exact absurd hu (List.not_mem_nil t)
  | cons w ws ih =>
      intro acc hu
      by_cases hw : w = t
      · subst hw
        unfold collectDbModels
        rw [ht]
        dsimp only
        exact ⟨_, List.mem_cons_of_mem _ (List.mem_cons_self _ _)⟩
      · have hu' : t ∈ ws := by
          rcases List.mem_cons.mp hu with rfl | h
          · exact absurd rfl hw
          · exact h
        cases hf : env.fetch_table_schema w with
        | error e2 =>
            unfold collectDbModels
            rw [hf]
            dsimp only
            obtain ⟨m, hm⟩ := ih _ hu'
            exact ⟨m, List.mem_cons_of_mem _ (List.mem_cons_of_mem _ hm)⟩
        | ok sch =>
            cases hg : env.table_schema_to_hash sch with
            | error e3 =>
                unfold collectDbModels
                rw [hf]
                dsimp only
                rw [hg]
                dsimp only
                obtain ⟨m, hm⟩ := ih _ hu'
                exact ⟨m, List.mem_cons_of_mem _ (List.mem_cons_of_mem _ hm)⟩
            | ok hw2 =>
                unfold collectDbModels
                rw [hf]
                dsimp only
                rw [hg]
                dsimp only
                obtain ⟨m, hm⟩ := ih _ hu'
                exact ⟨m, List.mem_cons_of_mem _ hm⟩

/-- **C7**: a failure to read the schema of one table does not abort
introspection — the failing table is skipped (never entered into
`db_data_models`) and logged, every other table whose fetch and hash
succeed is still collected, and `check_for_model_changes` still returns
normally. -/
theorem single_table_failure_skipped (env : Env) (tables : List String)
    (t e : String) (ht : env.fetch_table_schema t = Except.error e) :
    (∀ acc, lookupAssoc (collectDbModels env tables acc).2 t =
      lookupAssoc acc t) ∧
    (∀ u ∈ tables, ∀ s hv, env.fetch_table_schema u = Except.ok s →
      env.table_schema_to_hash s = Except.ok hv →
      ∀ acc, lookupAssoc (collectDbModels env tables acc).2 u = some hv) ∧
    (t ∈ tables → ∀ acc,
      ∃ m, Event.errorLog m ∈ (collectDbModels env tables acc).1) ∧
    (∀ fov cur prev,
      buildModelHashes env.table_schema_to_hash
        (valuesOf fov.current_models.models) [] = some cur →
      buildModelHashes env.table_schema_to_hash
        ((fov.previous_version_models.map
          (fun vsv => valuesOf vsv.2.models)).flatten) [] = some prev →
      env.check_ready = Except.ok () →
      env.fetch_table_names = Except.ok tables →
      (check_for_model_changes env fov).isOk = true) := by
  refine ⟨?_, ?_, ?_, ?_⟩
  · intro acc
    exact collectDbModels_skips_failing env t e ht tables acc
  · intro u hu s hv hs hh acc
    exact collectDbModels_collects env u s hv hs hh tables hu acc
  · intro htm acc
    exact collectDbModels_logs_failing env t e ht tables acc htm
  · intro fov cur prev hcur hprev hok htn
    simp only [check_for_model_changes, hcur, hprev, hok, htn]
    rfl

/-- **C7** witness: introspecting `["events", "broken"]` where `broken`
cannot be read leaves `broken` out, still collects `events`, and the pass
returns normally. -/
theorem single_table_failure_skipped_witness :
    lookupAssoc (collectDbModels envIntro ["events", "broken"] []).2 "broken" =
      lookupAssoc ([] : List (String × Nat)) "broken" ∧
    lookupAssoc (collectDbModels envIntro ["events", "broken"] []).2 "events" =
      some 1 ∧
    (check_for_model_changes envIntro fovEmpty).isOk = true := by
  have h := single_table_failure_skipped envIntro ["events", "broken"]
    "broken" "timeout" rfl
  refine ⟨h.1 [], ?_, ?_⟩
  · exact h.2.1 "events" (by simp) [("id", "String")] 1 rfl rfl []
  · exact h.2.2.2 fovEmpty [] [] rfl rfl rfl rfl

/-- **C8**: the aggregations registry is created over `blocks/` when the
`blocks` flag is set and over `aggregations/` when it is not, in both
startup modes, and the directory-name constants are exactly `"blocks"` and
`"aggregations"`. -/
theorem aggregations_registry_directory (env : Env) (features : Features)
    (project : Project) :
    (∀ d, Event.newAggregationRegistry d ∈
        (start_development_mode env features project).events →
      d = (if features.blocks then project.blocks_dir
           else project.aggregations_dir)) ∧
    (∀ d, Event.newAggregationRegistry d ∈
        (start_production_mode env features project).events →
      d = (if features.blocks then project.blocks_dir
           else project.aggregations_dir)) ∧
    Project.blocks_dir project = project.root ++ [APP_DIR, BLOCKS_DIR] ∧
    Project.aggregations_dir project =
      project.root ++ [APP_DIR, AGGREGATIONS_DIR] ∧
    BLOCKS_DIR = "blocks" ∧ AGGREGATIONS_DIR = "aggregations" := by
  refine ⟨?_, ?_, rfl, rfl, rfl, rfl⟩
  · intro d hmem
    unfold start_development_mode at hmem
    rcases mem_events_bind.mp hmem with hinit | ⟨_, _, _, hmem⟩
    · rcases mem_initialize_project_state_events env features project _ hinit with
        h1 | h1 | h1 | ⟨t, h1⟩ | ⟨m, h1⟩ | ⟨v, h1⟩ | h1 | ⟨s, d', h1⟩ | h1 <;>
        simp at h1
    rcases mem_events_bind.mp hmem with hbr | ⟨_, _, _, hmem⟩
    · by_cases hc : features.core_v2
      · rw [if_pos hc] at hbr
        rcases mem_coreV2Branch_events env _ hbr with h1 | h1 | h1 | h1 <;>
          simp at h1
      · rw [if_neg hc] at hbr
        rcases mem_events_bind.mp hbr with hl | ⟨_, _, _, hbr⟩
        · simp [Res.events] at hl
        rcases mem_events_bind.mp hbr with hl | ⟨_, _, _, hbr⟩
        · rw [events_lift] at hl
          simp at hl
        · rcases mem_legacyRegistriesTail_events env features project _ hbr with
            h1 | h1 | h1 | h1
          · simp at h1
          · exact Event.newAggregationRegistry.inj h1
          · simp at h1
          · simp at h1
    · rcases mem_events_bind.mp hmem with hl | ⟨_, _, _, hmem⟩
      · rw [events_lift] at hl
        simp at hl
      · rw [events_lift] at hmem
        simp at hmem
  · intro d hmem
    unfold start_production_mode at hmem
    rcases mem_events_bind.mp hmem with hinit | ⟨_, _, _, hmem⟩
    · rcases mem_initialize_project_state_events env features project _ hinit with
        h1 | h1 | h1 | ⟨t, h1⟩ | ⟨m, h1⟩ | ⟨v, h1⟩ | h1 | ⟨s, d', h1⟩ | h1 <;>
        simp at h1
    · by_cases hc : features.core_v2
      · rw [if_pos hc] at hmem
        rcases mem_coreV2Branch_events env _ hmem with h1 | h1 | h1 | h1 <;>
          simp at h1
      · rw [if_neg hc] at hmem
        rcases mem_events_bind.mp hmem with hl | ⟨_, _, _, hmem⟩
        · rw [events_lift] at hl
          simp at hl
        rcases mem_events_bind.mp hmem with hl | ⟨_, _, _, hmem⟩
        · simp [Res.events] at hl
        · rcases mem_legacyRegistriesTail_events env features project _ hmem with
            h1 | h1 | h1 | h1
          · simp at h1
          · exact Event.newAggregationRegistry.inj h1
          · simp at h1
          · simp at h1

/-- **C8** witness: with the `blocks` flag set, the registry in a concrete
development run is created over `proj/app/blocks`. -/
theorem aggregations_registry_directory_witness :
    (["proj", "app", "blocks"] : List String) =
      (if featuresLegacyBlocks.blocks then projectW.blocks_dir
       else projectW.aggregations_dir) :=
  (aggregations_registry_directory envBase featuresLegacyBlocks projectW).1
    ["proj", "app", "blocks"] (by decide)

end Moose
